import Mathlib

/-!
Shallow embedding of the todo-app task model, forms and views
(src/todoapp/todos/models.py, forms.py, views.py).

Conventions of the embedding:
* users are identified by their integer primary key (`Nat`);
* points in time (`timezone.now()`, `deadline`, `created_at`, `completed_at`)
  are integers (`Int`), compared with the usual order;
* a `DateTimeField(null=True)` is an `Option Int`;
* the Django `ValidationError` is `Except String`;
* the database is a `List Task`; the `INSERT` that assigns a fresh primary
  key on first save is made explicit in the create view.
-/

namespace TodoApp

/-- The `Task.PRIORITY_CHOICES` from models.py. -/
inductive Priority
  | low
  | medium
  | high
deriving DecidableEq, Repr

/-- The `Task.STATUS_CHOICES` from models.py. -/
inductive Status
  | pending
  | in_progress
  | completed
deriving DecidableEq, Repr

/-- The `Task` model (models.py lines 7-58).  `pk` is `none` for a record
that has never been persisted, mirroring `self.pk is None` in `clean`. -/
structure Task where
  pk : Option Nat
  title : String
  description : String
  deadline : Option Int
  priority : Priority
  status : Status
  completed : Bool
  completed_at : Option Int
  created_by : Nat
  assigned_to : Option Nat
  created_at : Int
deriving DecidableEq, Repr

/-- The boolean test `self.deadline and self.deadline < timezone.now()`
used in `Task.clean`. -/
def Task.deadline_in_past (now : Int) (t : Task) : Bool :=
  match t.deadline with
  | some d => decide (d < now)
  | none => false

/-- The `Task.clean` (models.py lines 73-83): rejects a past deadline only when
the record is unsaved (`self.pk is None`), then forces the
`completed`/`completed_at` pair into agreement. -/
def Task.clean (now : Int) (t : Task) : Except String Task :=
  if t.deadline_in_past now && t.pk.isNone then
    .error "Deadline cannot be in the past"
  else if t.completed && t.completed_at.isNone then
    .ok { t with completed_at := some now }
  else if !t.completed && t.completed_at.isSome then
    .ok { t with completed_at := none }
  else
    .ok t

/-- The `Task.save` (models.py lines 85-88): `full_clean` runs `clean` and then
the row is written.  The primary key a fresh row receives from the INSERT is
assigned by the caller (see `task_create_view`). -/
def Task.save (now : Int) (t : Task) : Except String Task :=
  t.clean now

/-- The `Task.mark_as_completed` (models.py lines 90-95). -/
def Task.mark_as_completed (now : Int) (t : Task) : Except String Task :=
  Task.save now { t with completed := true, status := .completed, completed_at := some now }

/-- The `Task.mark_as_pending` (models.py lines 97-102). -/
def Task.mark_as_pending (now : Int) (t : Task) : Except String Task :=
  Task.save now { t with completed := false, status := .pending, completed_at := none }

/-- The `Task.is_overdue` (models.py lines 104-108). -/
def Task.is_overdue (now : Int) (t : Task) : Bool :=
  match t.deadline with
  | some d => !t.completed && decide (now > d)
  | none => false

/-- The `Task.can_be_edited_by` (models.py lines 117-119). -/
def Task.can_be_edited_by (t : Task) (user : Nat) : Bool :=
  decide (t.created_by = user) || decide (t.assigned_to = some user)

/-- The `Task.can_be_deleted_by` (models.py lines 121-123). -/
def Task.can_be_deleted_by (t : Task) (user : Nat) : Bool :=
  decide (t.created_by = user)

/-! ## TaskForm (forms.py lines 7-77)

A bound form carries the raw submitted data.  `deadline` and `assigned_to`
may be left empty (`none`); `priority` is optional and the model default
`medium` applies when it is blank. -/

/-- The raw POST data a `TaskForm` is bound to. -/
structure TaskFormData where
  title : String
  description : String
  deadline : Option Int
  priority : Option Priority
  assigned_to : Option Nat
deriving DecidableEq, Repr

/-- The form `cleaned_data` after a successful validation pass. -/
structure CleanedTaskForm where
  title : String
  description : String
  deadline : Option Int
  priority : Priority
  assigned_to : Option Nat
deriving DecidableEq, Repr

/-- The queryset of the `assigned_to` field, set up in `TaskForm.__init__`
(forms.py line 41): every user except the acting one. -/
def TaskForm.assigned_to_queryset (user : Nat) (allUsers : List Nat) : List Nat :=
  allUsers.filter fun u => decide (u ≠ user)

/-- The `TaskForm.clean_deadline` (forms.py lines 48-53). -/
def TaskForm.clean_deadline (now : Int) (deadline : Option Int) : Except String (Option Int) :=
  match deadline with
  | some d => if d < now then .error "Deadline cannot be in the past." else .ok (some d)
  | none => .ok none

/-- Field-level validation (Django `_clean_fields`): `title` is required,
`deadline` goes through `clean_deadline`, a submitted `assigned_to` must be
a member of the field queryset (which excludes the acting user), while an
empty `assigned_to` passes because the field is not required; a blank
`priority` falls back to the model default `medium`. -/
def TaskForm.clean_fields (now : Int) (user : Nat) (allUsers : List Nat)
    (data : TaskFormData) : Except String CleanedTaskForm :=
  if data.title = "" then .error "title: This field is required." else
  match TaskForm.clean_deadline now data.deadline with
  | .error e => .error e
  | .ok dl =>
    match data.assigned_to with
    | none =>
        .ok { title := data.title, description := data.description, deadline := dl,
              priority := data.priority.getD .medium, assigned_to := none }
    | some v =>
        if v ∈ TaskForm.assigned_to_queryset user allUsers then
          .ok { title := data.title, description := data.description, deadline := dl,
                priority := data.priority.getD .medium, assigned_to := some v }
        else .error "assigned_to: Select a valid choice."

/-- The `TaskForm.clean` (forms.py lines 55-77): when the raw submitted
`assigned_to` is empty the acting user is re-admitted into the field
queryset (first component of the result), and an empty cleaned
`assigned_to` is defaulted to the acting user. -/
def TaskForm.clean (user : Nat) (allUsers : List Nat) (data : TaskFormData)
    (cd : CleanedTaskForm) : List Nat × CleanedTaskForm :=
  let queryset :=
    if data.assigned_to.isNone then allUsers
    else TaskForm.assigned_to_queryset user allUsers
  if cd.assigned_to.isNone then (queryset, { cd with assigned_to := some user })
  else (queryset, cd)

/-- The `TaskForm.is_valid`: Django runs `_clean_fields` and then the form
method `clean`.  On success the view reads `cleaned_data`. -/
def TaskForm.is_valid (now : Int) (user : Nat) (allUsers : List Nat)
    (data : TaskFormData) : Except String CleanedTaskForm :=
  (TaskForm.clean_fields now user allUsers data).map
    fun cd => (TaskForm.clean user allUsers data cd).2

/-! ## Views (views.py) -/

inductive Method
  | get
  | post
deriving DecidableEq, Repr

/-- The unsaved instance `form.save(commit=False)` yields in
`task_create_view`, after the view assignment `task.created_by = request.user` and
its `if not task.assigned_to: task.assigned_to = request.user`
(views.py lines 65-68); unset model fields carry their defaults
(`status = pending`, `completed = false`). -/
def create_instance (now : Int) (user : Nat) (cd : CleanedTaskForm) : Task :=
  { pk := none, title := cd.title, description := cd.description,
    deadline := cd.deadline, priority := cd.priority, status := .pending,
    completed := false, completed_at := none, created_by := user,
    assigned_to := if cd.assigned_to.isNone then some user else cd.assigned_to,
    created_at := now }

/-- The `task_create_view` (views.py lines 59-75): validate the form, build the
instance, save, and let the INSERT assign the fresh primary key. -/
def task_create_view (now : Int) (user : Nat) (allUsers : List Nat)
    (data : TaskFormData) (fresh : Nat) : Except String Task :=
  match TaskForm.is_valid now user allUsers data with
  | .error e => .error e
  | .ok cd =>
      ((create_instance now user cd).save now).map fun t => { t with pk := some fresh }

/-- Outcome of `task_update_view`. -/
inductive UpdateResult
  | denied
  | invalid (e : String)
  | updated (t : Task)
deriving DecidableEq, Repr

/-- The instance mutation performed by `form.save()` on an update: only
the `Meta.fields` — title/description/deadline/priority/assigned_to
(forms.py lines 10-12) — are copied onto the existing record. -/
def update_instance (t : Task) (cd : CleanedTaskForm) : Task :=
  { t with
    title := cd.title, description := cd.description, deadline := cd.deadline,
    priority := cd.priority, assigned_to := cd.assigned_to }

/-- The `task_update_view` (views.py lines 91-110): permission gate on
`can_be_edited_by`, then the same form validation bound to the existing
instance, then `form.save()` writes the copied-onto instance. -/
def task_update_view (now : Int) (user : Nat) (allUsers : List Nat)
    (t : Task) (data : TaskFormData) : UpdateResult :=
  if !t.can_be_edited_by user then .denied
  else
    match TaskForm.is_valid now user allUsers data with
    | .error e => .invalid e
    | .ok cd =>
        match (update_instance t cd).save now with
        | .error e => .invalid e
        | .ok t3 => .updated t3

/-- Outcome of `task_delete_view`: `denied` is the redirect to the task
list with the permission flash message, `confirm_page` the GET confirmation
render, `deleted` the redirect after the destructive POST.  There is no
hard-failure (403/500) outcome in the view. -/
inductive DeleteResult
  | denied
  | confirm_page
  | deleted
deriving DecidableEq, Repr

/-- The `task_delete_view` (views.py lines 113-129), acting on the database
`db`: returns the database after the request together with the response. -/
def task_delete_view (db : List Task) (t : Task) (user : Nat) (m : Method) :
    List Task × DeleteResult :=
  if !t.can_be_deleted_by user then (db, .denied)
  else
    match m with
    | .post => (db.filter fun x => decide (x.pk ≠ t.pk), .deleted)
    | .get => (db, .confirm_page)

/-- The `task_toggle_complete_view` body after its permission gate
(views.py lines 142-147). -/
def toggle_complete (now : Int) (t : Task) : Except String Task :=
  if t.completed then t.mark_as_pending now else t.mark_as_completed now

/-- A validated `TaskFilterForm` (forms.py lines 80-119): `none` stands for
the empty "All ..." choice. -/
structure TaskFilterForm where
  status : Option Status
  priority : Option Priority
  show_completed : Bool
  assigned_to_me : Bool
deriving DecidableEq, Repr

/-- The base queryset of `task_list_view` (views.py lines 14-16):
tasks created by or assigned to the acting user. -/
def base_tasks (db : List Task) (user : Nat) : List Task :=
  db.filter fun t => decide (t.created_by = user) || decide (t.assigned_to = some user)

/-- The optional filters of `task_list_view` (views.py lines 26-36),
applied in source order. -/
def apply_filters (f : TaskFilterForm) (user : Nat) (ts : List Task) : List Task :=
  let ts := match f.status with
    | some s => ts.filter fun t => decide (t.status = s)
    | none => ts
  let ts := match f.priority with
    | some p => ts.filter fun t => decide (t.priority = p)
    | none => ts
  let ts := if !f.show_completed then ts.filter (fun t => !t.completed) else ts
  let ts := if f.assigned_to_me then ts.filter (fun t => decide (t.assigned_to = some user)) else ts
  ts

/-- The filtered (unordered) queryset of `task_list_view`. -/
def task_list_filtered (db : List Task) (user : Nat) (f : TaskFilterForm) : List Task :=
  apply_filters f user (base_tasks db user)

/-- The ordering `order_by(deadline, -created_at)` (views.py line 39)
as a total Boolean preorder: ascending by deadline with `NULL` deadlines
first (the `NULLS FIRST` ascending placement of the SQLite backend the
project is configured with — a deterministic placement), ties broken by
`created_at` descending. -/
def task_order_le (a b : Task) : Bool :=
  match a.deadline, b.deadline with
  | none, none => decide (b.created_at ≤ a.created_at)
  | none, some _ => true
  | some _, none => false
  | some x, some y =>
      decide (x < y) || (decide (x = y) && decide (b.created_at ≤ a.created_at))

/-- The ordered queryset of `task_list_view` (views.py line 39). -/
def task_list_ordered (db : List Task) (user : Nat) (f : TaskFilterForm) : List Task :=
  (task_list_filtered db user f).mergeSort task_order_le

/-- Recursion kernel for `paginate`: structural recursion on a fuel that
bounds the list length. -/
def paginate_aux : Nat → List Task → List (List Task)
  | _, [] => []
  | 0, _ :: _ => []
  | fuel + 1, x :: xs => ((x :: xs).take 10) :: paginate_aux fuel ((x :: xs).drop 10)

/-- The `Paginator(tasks, 10)` (views.py line 42): the pages, each of at most
10 tasks, in order. -/
def paginate (l : List Task) : List (List Task) :=
  paginate_aux l.length l

/-- The `overdue_count` query of `task_list_view` (views.py lines 49-53):
base-set membership, `deadline__lt=now` and `completed=False` in one
filter, then `count()`. -/
def overdue_count (now : Int) (db : List Task) (user : Nat) : Nat :=
  (db.filter fun t =>
    (decide (t.created_by = user) || decide (t.assigned_to = some user)) &&
    (match t.deadline with | some d => decide (d < now) | none => false) &&
    !t.completed).length

/-! ## Concrete fixtures used to instantiate the theorems -/

/-- A persisted task in progress, created by and assigned to user 1. -/
def sample_in_progress : Task :=
  { pk := some 1, title := "t", description := "", deadline := none,
    priority := .medium, status := .in_progress, completed := false,
    completed_at := none, created_by := 1, assigned_to := some 1, created_at := 0 }

/-- A persisted pending task, created by and assigned to user 1. -/
def sample_pending : Task :=
  { sample_in_progress with pk := some 2, status := .pending }

/-- A persisted task created by user 1 and assigned to user 2. -/
def sample_assigned : Task :=
  { sample_in_progress with pk := some 3, assigned_to := some 2 }

/-- A persisted task of user 1 whose deadline (50) lies in the past once
`now` has moved beyond it. -/
def sample_saved : Task :=
  { sample_in_progress with
    pk := some 7, title := "old", status := .pending, deadline := some 50 }

/-- An update submission re-sending the historical deadline 50. -/
def sample_update_data : TaskFormData :=
  { title := "old", description := "", deadline := some 50, priority := none,
    assigned_to := none }

/-- A create submission leaving `assigned_to` (and everything optional)
empty. -/
def sample_create_data : TaskFormData :=
  { title := "Buy milk", description := "", deadline := none, priority := none,
    assigned_to := none }

/-- The filter form with no filter engaged. -/
def sample_filter : TaskFilterForm :=
  { status := none, priority := none, show_completed := true, assigned_to_me := false }

/-- Eleven copies of `sample_assigned`: enough rows for two pages. -/
def sample_db : List Task := List.replicate 11 sample_assigned

/-- The `sample_saved` after `mark_as_completed` at time 100. -/
def sample_completed : Task :=
  { sample_saved with completed := true, status := .completed, completed_at := some 100 }

/-- The `sample_assigned` after a successful update with `sample_create_data`
(the empty assignee defaults back to the acting user 1). -/
def sample_updated : Task :=
  { sample_in_progress with pk := some 3, title := "Buy milk" }

end TodoApp

namespace TodoApp

/-! ## Helper lemmas -/

/-- Any record a successful `save` returns has `completed` equal to
`completed_at.isSome`: `clean` re-establishes the pairing. -/
theorem save_completed_eq {now : Int} {t t' : Task} (h : t.save now = .ok t') :
    t'.completed = t'.completed_at.isSome := by
  simp only [Task.save, Task.clean] at h
  split at h
  · simp at h
  · cases hb : t.completed <;> cases hca : t.completed_at <;>
      simp [hb, hca] at h <;> subst h <;> simp [hb, hca]

/-- When `completed` and `completed_at` already agree, `clean` only runs
the creation-time deadline check and otherwise returns the task
untouched. -/
theorem clean_of_inv {t : Task} (now : Int) (h : t.completed = t.completed_at.isSome) :
    t.clean now =
      if t.deadline_in_past now && t.pk.isNone then
        .error "Deadline cannot be in the past"
      else .ok t := by
  have hb : (t.completed && t.completed_at.isNone) = false := by
    cases hca : t.completed_at <;> simp_all
  have hc : (!t.completed && t.completed_at.isSome) = false := by
    cases hca : t.completed_at <;> simp_all
  simp only [Task.clean, hb, hc, Bool.false_eq_true, if_false]

/-- A save of an already-persisted record (`pk` set) always succeeds:
the deadline check is skipped and `clean` only repairs the completion
pairing. -/
theorem save_of_persisted {t : Task} (now : Int) (h : t.pk.isSome = true) :
    ∃ t', t.save now = .ok t' := by
  have hpk : t.pk.isNone = false := by simp_all [Option.isNone_eq_false_iff]
  simp only [Task.save, Task.clean, hpk, Bool.and_false, Bool.false_eq_true, if_false]
  split
  · exact ⟨_, rfl⟩
  · split
    · exact ⟨_, rfl⟩
    · exact ⟨_, rfl⟩

/-- Toggling a not-yet-completed persisted task marks it completed. -/
theorem toggle_of_not_completed {t : Task} (now : Int) (hpk : t.pk.isSome = true)
    (hc : t.completed = false) :
    toggle_complete now t =
      .ok { t with completed := true, status := .completed, completed_at := some now } := by
  have hpk2 : t.pk.isNone = false := by simp_all [Option.isNone_eq_false_iff]
  simp [toggle_complete, Task.mark_as_completed, Task.save, Task.clean, hc, hpk2]

/-- Toggling a completed persisted task marks it pending. -/
theorem toggle_of_completed {t : Task} (now : Int) (hpk : t.pk.isSome = true)
    (hc : t.completed = true) :
    toggle_complete now t =
      .ok { t with completed := false, status := .pending, completed_at := none } := by
  have hpk2 : t.pk.isNone = false := by simp_all [Option.isNone_eq_false_iff]
  simp [toggle_complete, Task.mark_as_pending, Task.save, Task.clean, hc, hpk2]

/-- A successful save never changes the `completed` flag. -/
theorem save_preserves_completed {now : Int} {t t' : Task}
    (h : t.save now = .ok t') : t'.completed = t.completed := by
  simp only [Task.save, Task.clean] at h
  split at h
  · simp at h
  · cases hb : t.completed <;> cases hca : t.completed_at <;>
      simp [hb, hca] at h <;> subst h <;> simp [hb, hca]

/-- The `task_order_le` is total. -/
theorem task_order_le_total :
    ∀ a b : Task, (task_order_le a b || task_order_le b a) = true := by
  intro a b
  unfold task_order_le
  rcases ha : a.deadline with _ | x <;> rcases hb : b.deadline with _ | y <;>
    simp <;> omega

/-- The `task_order_le` is transitive. -/
theorem task_order_le_trans :
    ∀ a b c : Task, task_order_le a b = true → task_order_le b c = true →
      task_order_le a c = true := by
  intro a b c hab hbc
  unfold task_order_le at *
  rcases ha : a.deadline with _ | x <;> rcases hb : b.deadline with _ | y <;>
    rcases hc : c.deadline with _ | z <;> simp_all <;> omega

/-- Concatenating the pages gives back the paginated list. -/
theorem paginate_aux_flatten :
    ∀ (fuel : Nat) (l : List Task), l.length ≤ fuel →
      (paginate_aux fuel l).flatten = l := by
  intro fuel
  induction fuel with
  | zero =>
      intro l hl
      cases l with
      | nil => rfl
      | cons x xs => simp at hl
  | succ n ih =>
      intro l hl
      cases l with
      | nil => rfl
      | cons x xs =>
          simp only [paginate_aux, List.flatten_cons]
          rw [ih]
          · exact List.take_append_drop 10 (x :: xs)
          · simp only [List.length_drop, List.length_cons]
            simp only [List.length_cons] at hl
            omega

/-- Every page holds at most 10 tasks. -/
theorem paginate_aux_length_le :
    ∀ (fuel : Nat) (l : List Task) (p : List Task),
      p ∈ paginate_aux fuel l → p.length ≤ 10 := by
  intro fuel
  induction fuel with
  | zero =>
      intro l p hp
      cases l with
      | nil => simp [paginate_aux] at hp
      | cons x xs => simp [paginate_aux] at hp
  | succ n ih =>
      intro l p hp
      cases l with
      | nil => simp [paginate_aux] at hp
      | cons x xs =>
          simp only [paginate_aux, List.mem_cons] at hp
          rcases hp with rfl | hp
          · simp [List.length_take]
          · exact ih _ p hp

/-- Every page but possibly the last holds exactly 10 tasks. -/
theorem paginate_aux_dropLast :
    ∀ (fuel : Nat) (l : List Task) (p : List Task),
      p ∈ (paginate_aux fuel l).dropLast → p.length = 10 := by
  intro fuel
  induction fuel with
  | zero =>
      intro l p hp
      cases l with
      | nil => simp [paginate_aux] at hp
      | cons x xs => simp [paginate_aux] at hp
  | succ n ih =>
      intro l p hp
      cases l with
      | nil => simp [paginate_aux] at hp
      | cons x xs =>
          simp only [paginate_aux] at hp
          cases hrest : paginate_aux n ((x :: xs).drop 10) with
          | nil => rw [hrest] at hp; simp at hp
          | cons q qs =>
              rw [hrest, List.dropLast_cons_of_ne_nil (by simp)] at hp
              rcases List.mem_cons.mp hp with rfl | hp2
              · -- the head page is full: the remainder was non-empty
                have hne : (x :: xs).drop 10 ≠ [] := by
                  intro hnil
                  rw [hnil] at hrest
                  cases n <;> simp [paginate_aux] at hrest
                have hlen : 10 < (x :: xs).length := by
                  by_contra hle
                  exact hne (List.drop_eq_nil_of_le (by omega))
                simp only [List.length_take, List.length_cons]
                simp only [List.length_cons] at hlen
                omega
              · exact ih _ p (hrest ▸ hp2)

/-- Inversion for `Except.map` landing on `ok`. -/
theorem except_map_ok {α β : Type} {f : α → β} {x : Except String α} {b : β}
    (h : x.map f = .ok b) : ∃ a, x = .ok a ∧ b = f a := by
  cases x with
  | error e => simp [Except.map] at h
  | ok a => exact ⟨a, rfl, by simpa [Except.map] using h.symm⟩

/-! ## Claims -/

/-- C1: for every task T and user U, the delete permission predicate is
true iff U is T.created_by; in particular it is false for an assignee who
is not the creator. -/
theorem can_delete_iff_creator :
    (∀ (t : Task) (u : Nat), t.can_be_deleted_by u = true ↔ u = t.created_by) ∧
    (∀ (t : Task) (u : Nat), t.assigned_to = some u → u ≠ t.created_by →
      t.can_be_deleted_by u = false) := by
  constructor
  · intro t u
    simp [Task.can_be_deleted_by, eq_comm]
  · intro t u _ hne
    simp [Task.can_be_deleted_by]
    exact fun hh => hne hh.symm

/-- Witness for C1: user 2 is the assignee but not the creator of
`sample_assigned` and may not delete it. -/
theorem can_delete_iff_creator_witness :
    Task.can_be_deleted_by sample_assigned 2 = false :=
  can_delete_iff_creator.2 sample_assigned 2 rfl (by decide)

/-- C9: a delete request (GET or the destructive POST) by any user who is
not the creator leaves the database unchanged and ends in the
redirect-to-list-with-flash outcome `denied`; the view result type has
no hard-failure (403/500) outcome at all. -/
theorem delete_by_non_creator_is_noop :
    ∀ (db : List Task) (t : Task) (user : Nat) (m : Method),
      user ≠ t.created_by →
      task_delete_view db t user m = (db, .denied) := by
  intro db t user m h
  have hc : t.can_be_deleted_by user = false := by
    simp [Task.can_be_deleted_by]
    exact fun hh => h hh.symm
  simp [task_delete_view, hc]

/-- Witness for C9: a POST delete of `sample_assigned` by its assignee
(user 2) keeps the one-task database intact. -/
theorem delete_by_non_creator_is_noop_witness :
    task_delete_view [sample_assigned] sample_assigned 2 .post
      = ([sample_assigned], .denied) :=
  delete_by_non_creator_is_noop [sample_assigned] sample_assigned 2 .post (by decide)

/-- C2: every successful save — and hence every task coming out of the
create, update and toggle-complete operations — satisfies
`completed = true ↔ completed_at` is set. -/
theorem completed_iff_completed_at :
    (∀ (now : Int) (t t' : Task), t.save now = .ok t' →
      (t'.completed = true ↔ t'.completed_at.isSome = true)) ∧
    (∀ (now : Int) (user : Nat) (allUsers : List Nat) (data : TaskFormData)
      (fresh : Nat) (t : Task),
      task_create_view now user allUsers data fresh = .ok t →
      (t.completed = true ↔ t.completed_at.isSome = true)) ∧
    (∀ (now : Int) (user : Nat) (allUsers : List Nat) (t : Task)
      (data : TaskFormData) (t' : Task),
      task_update_view now user allUsers t data = .updated t' →
      (t'.completed = true ↔ t'.completed_at.isSome = true)) ∧
    (∀ (now : Int) (t t' : Task), toggle_complete now t = .ok t' →
      (t'.completed = true ↔ t'.completed_at.isSome = true)) := by
  refine ⟨?_, ?_, ?_, ?_⟩
  · intro now t t' h
    rw [save_completed_eq h]
  · intro now user allUsers data fresh t h
    simp only [task_create_view] at h
    split at h
    · simp at h
    · obtain ⟨a, ha, rfl⟩ := except_map_ok h
      have := save_completed_eq ha
      simpa using this
  · intro now user allUsers t data t' h
    simp only [task_update_view] at h
    split at h
    · simp at h
    · split at h
      · simp at h
      · split at h
        · simp at h
        · rename_i heq
          simp only [UpdateResult.updated.injEq] at h
          subst h
          rw [save_completed_eq heq]
  · intro now t t' h
    cases hc : t.completed with
    | true =>
        simp only [toggle_complete, hc, if_true, Task.mark_as_pending] at h
        rw [save_completed_eq h]
    | false =>
        simp only [toggle_complete, hc, Bool.false_eq_true, if_false,
          Task.mark_as_completed] at h
        rw [save_completed_eq h]

/-- Witness for C2: a direct save of `sample_pending` keeps the pairing. -/
theorem completed_iff_completed_at_witness :
    sample_pending.completed = true ↔ sample_pending.completed_at.isSome = true :=
  completed_iff_completed_at.1 0 sample_pending sample_pending rfl

/-- Counterexample to C3: `sample_in_progress` starts at
`(completed, status, completed_at-is-None) = (false, in_progress, true)`,
but two toggles land on status `pending`, not `in_progress`. -/
theorem toggle_twice_counterexample :
    ((toggle_complete 5 sample_in_progress).bind (toggle_complete 6)).map
        (fun s => (s.completed, s.status, s.completed_at.isNone))
      = .ok (false, Status.pending, true) ∧
    (sample_in_progress.completed, sample_in_progress.status,
        sample_in_progress.completed_at.isNone)
      = (false, Status.in_progress, true) ∧
    Status.pending ≠ Status.in_progress :=
  ⟨rfl, rfl, by decide⟩

/-- C3 amended: toggling twice restores the
`(completed, status, completed_at-is-None)` triple for a persisted task
whose stored state is consistent and not `in_progress` — that is,
`(completed, status)` is `(false, pending)` or `(true, completed)` with
`completed_at` matching `completed`.  When the task starts with
`status = in_progress` and `completed = false`, the double toggle ends at
`status = pending` instead, so the triple is not restored. -/
theorem toggle_twice_amended :
    (∀ (now1 now2 : Int) (t : Task), t.pk.isSome = true →
      t.completed = t.completed_at.isSome →
      ((t.completed = false ∧ t.status = .pending) ∨
       (t.completed = true ∧ t.status = .completed)) →
      ((toggle_complete now1 t).bind (toggle_complete now2)).map
          (fun s => (s.completed, s.status, s.completed_at.isNone))
        = .ok (t.completed, t.status, t.completed_at.isNone)) ∧
    (∀ (now1 now2 : Int) (t : Task), t.pk.isSome = true →
      t.completed = false → t.status = .in_progress →
      ((toggle_complete now1 t).bind (toggle_complete now2)).map (fun s => s.status)
        = .ok Status.pending) := by
  constructor
  · intro now1 now2 t hpk hinv h3
    obtain ⟨k, hk⟩ := Option.isSome_iff_exists.mp hpk
    rcases h3 with ⟨hc, hs⟩ | ⟨hc, hs⟩
    · cases hca : t.completed_at with
      | some v => rw [hc, hca] at hinv; simp at hinv
      | none =>
          simp [toggle_complete, Task.mark_as_completed, Task.mark_as_pending,
            Task.save, Task.clean, hc, hs, hca, hk, Except.bind, Except.map]
    · cases hca : t.completed_at with
      | none => rw [hc, hca] at hinv; simp at hinv
      | some v =>
          simp [toggle_complete, Task.mark_as_completed, Task.mark_as_pending,
            Task.save, Task.clean, hc, hs, hca, hk, Except.bind, Except.map]
  · intro now1 now2 t hpk hc hs
    obtain ⟨k, hk⟩ := Option.isSome_iff_exists.mp hpk
    simp [toggle_complete, Task.mark_as_completed, Task.mark_as_pending,
      Task.save, Task.clean, hc, hk, Except.bind, Except.map]

/-- Witness for the amended C3: `sample_pending` is restored by a double
toggle. -/
theorem toggle_twice_amended_witness :
    ((toggle_complete 5 sample_pending).bind (toggle_complete 6)).map
        (fun s => (s.completed, s.status, s.completed_at.isNone))
      = .ok (sample_pending.completed, sample_pending.status,
             sample_pending.completed_at.isNone) :=
  toggle_twice_amended.1 5 6 sample_pending rfl rfl (Or.inl ⟨rfl, rfl⟩)

/-- C4: a create submission that leaves `assigned_to` empty (with a valid
title and a deadline not in the past) succeeds, and the persisted task has
`assigned_to = created_by = the acting user`: the acting user is excluded
from the field queryset, but an empty submission passes field validation
because the field is not required, is re-admitted in `TaskForm.clean`, and
is defaulted to the acting user. -/
theorem create_defaults_assignee_to_creator :
    ∀ (now : Int) (user : Nat) (allUsers : List Nat) (data : TaskFormData)
      (fresh : Nat),
      data.assigned_to = none → data.title ≠ "" →
      (∀ d, data.deadline = some d → now ≤ d) →
      ∃ t, task_create_view now user allUsers data fresh = .ok t ∧
        t.assigned_to = some user ∧ t.created_by = user := by
  intro now user allUsers data fresh hat htitle hdl
  have hdlt : TaskForm.clean_deadline now data.deadline = .ok data.deadline := by
    cases hd : data.deadline with
    | none => rfl
    | some d =>
        have hle := hdl d hd
        simp [TaskForm.clean_deadline]
        omega
  have hpast : (match data.deadline with
      | some d => decide (d < now)
      | none => false) = false := by
    cases hd : data.deadline with
    | none => rfl
    | some d =>
        have hle := hdl d hd
        simp
        omega
  refine ⟨{ pk := some fresh, title := data.title, description := data.description,
            deadline := data.deadline, priority := data.priority.getD .medium,
            status := .pending, completed := false, completed_at := none,
            created_by := user, assigned_to := some user, created_at := now },
          ?_, rfl, rfl⟩
  simp [task_create_view, TaskForm.is_valid, TaskForm.clean_fields, hdlt, hat, htitle,
    TaskForm.clean, create_instance, Task.save, Task.clean, Task.deadline_in_past,
    hpast, Except.map]

/-- Witness for C4: user 1 submits `sample_create_data` (no assignee) and
gets a task assigned to and created by user 1. -/
theorem create_defaults_assignee_to_creator_witness :
    ∃ t, task_create_view 100 1 [1, 2] sample_create_data 3 = .ok t ∧
      t.assigned_to = some 1 ∧ t.created_by = 1 :=
  create_defaults_assignee_to_creator 100 1 [1, 2] sample_create_data 3 rfl
    (by decide) (fun d hd => Option.noConfusion hd)

/-- Counterexample to C5: `sample_saved` is already persisted
(`pk = some 7`) with historical deadline 50; a form-based update at
`now = 100` re-submitting that deadline is rejected with the deadline
field error, so updates do re-validate historical deadlines. -/
theorem update_revalidates_deadline_counterexample :
    task_update_view 100 1 [1, 2] sample_saved sample_update_data
      = .invalid "Deadline cannot be in the past." ∧
    sample_saved.pk.isSome = true ∧
    sample_update_data.deadline = some 50 ∧ (50 : Int) < 100 :=
  ⟨rfl, rfl, rfl, by decide⟩

/-- C5 amended: a create submission with deadline exactly one second in
the past is rejected with the deadline field error; a submission with no
deadline always passes the deadline check; the model-level check is
indeed skipped for already-persisted records (a direct save never fails
once `pk` is set) — but the form `clean_deadline` runs on every
submission, so a form-based update that re-submits a past deadline is
rejected as well. -/
theorem deadline_validation_amended :
    (∀ (now : Int) (user : Nat) (allUsers : List Nat) (data : TaskFormData)
      (fresh : Nat),
      data.title ≠ "" → data.deadline = some (now - 1) →
      task_create_view now user allUsers data fresh
        = .error "Deadline cannot be in the past.") ∧
    (∀ now : Int, TaskForm.clean_deadline now none = .ok none) ∧
    (∀ (now : Int) (t : Task), t.pk.isSome = true → ∃ t', t.save now = .ok t') ∧
    (∀ (now : Int) (user : Nat) (allUsers : List Nat) (t : Task)
      (data : TaskFormData) (d : Int),
      t.can_be_edited_by user = true → data.title ≠ "" →
      data.deadline = some d → d < now →
      task_update_view now user allUsers t data
        = .invalid "Deadline cannot be in the past.") := by
  refine ⟨?_, fun _ => rfl, fun now t h => save_of_persisted now h, ?_⟩
  · intro now user allUsers data fresh htitle hd
    have hlt : now - 1 < now := by omega
    simp [task_create_view, TaskForm.is_valid, TaskForm.clean_fields,
      TaskForm.clean_deadline, htitle, hd, hlt, Except.map]
  · intro now user allUsers t data d hedit htitle hd hlt
    simp [task_update_view, hedit, TaskForm.is_valid, TaskForm.clean_fields,
      TaskForm.clean_deadline, htitle, hd, hlt, Except.map]

/-- Witness for the amended C5: the three hypothetical conjuncts applied
to concrete submissions. -/
theorem deadline_validation_amended_witness :
    task_create_view 51 1 [1, 2] sample_update_data 9
      = .error "Deadline cannot be in the past." ∧
    (∃ t', sample_saved.save 100 = .ok t') ∧
    task_update_view 100 1 [1, 2] sample_saved sample_update_data
      = .invalid "Deadline cannot be in the past." :=
  ⟨deadline_validation_amended.1 51 1 [1, 2] sample_update_data 9 (by decide) (by decide),
   deadline_validation_amended.2.2.1 100 sample_saved rfl,
   deadline_validation_amended.2.2.2 100 1 [1, 2] sample_saved sample_update_data 50
     (by decide) (by decide) rfl (by decide)⟩

/-- C10: a successful update leaves `completed`, `status`, `completed_at`,
`created_by` and `created_at` untouched — `form.save()` copies only
title/description/deadline/priority/assigned_to, and for a record whose
`completed`/`completed_at` pairing is consistent (which every persisted
record is, by C2) the save-time `clean` changes nothing further. -/
theorem update_changes_only_form_fields :
    ∀ (now : Int) (user : Nat) (allUsers : List Nat) (t : Task)
      (data : TaskFormData) (t' : Task),
      t.completed = t.completed_at.isSome →
      task_update_view now user allUsers t data = .updated t' →
      t'.completed = t.completed ∧ t'.status = t.status ∧
      t'.completed_at = t.completed_at ∧ t'.created_by = t.created_by ∧
      t'.created_at = t.created_at := by
  intro now user allUsers t data t' hinv h
  simp only [task_update_view] at h
  split at h
  · simp at h
  · split at h
    · simp at h
    · rename_i cd hcd
      split at h
      · simp at h
      · rename_i t3 heq
        simp only [UpdateResult.updated.injEq] at h
        subst h
        have hinv2 : (update_instance t cd).completed
            = (update_instance t cd).completed_at.isSome := by
          simpa [update_instance] using hinv
        rw [Task.save, clean_of_inv now hinv2] at heq
        split at heq
        · simp at heq
        · simp only [Except.ok.injEq] at heq
          subst heq
          simp [update_instance]

/-- Witness for C10: updating `sample_assigned` with `sample_create_data`
succeeds and preserves the non-form fields. -/
theorem update_changes_only_form_fields_witness :
    sample_updated.completed = sample_assigned.completed ∧
    sample_updated.status = sample_assigned.status ∧
    sample_updated.completed_at = sample_assigned.completed_at ∧
    sample_updated.created_by = sample_assigned.created_by ∧
    sample_updated.created_at = sample_assigned.created_at :=
  update_changes_only_form_fields 100 1 [1, 2] sample_assigned sample_create_data
    sample_updated rfl rfl

/-- C6: the overdue count is the number of tasks in the base set of the user
(creator or assignee, ignoring all optional filters) that `is_overdue`
reports — deadline strictly before now and not completed; a task just
toggled to completed contributes nothing to the count. -/
theorem overdue_count_correct :
    (∀ (now : Int) (db : List Task) (user : Nat),
      overdue_count now db user
        = ((base_tasks db user).filter fun t => t.is_overdue now).length) ∧
    (∀ (now now2 : Int) (user : Nat) (t t' : Task) (rest : List Task),
      t.mark_as_completed now = .ok t' →
      overdue_count now2 (t' :: rest) user = overdue_count now2 rest user) := by
  constructor
  · intro now db user
    unfold overdue_count base_tasks
    rw [List.filter_filter]
    apply congrArg List.length
    apply List.filter_congr
    intro x _
    cases hd : x.deadline <;> cases hc : x.completed <;>
      simp [Task.is_overdue, hd, hc, gt_iff_lt, Bool.and_comm, Bool.and_assoc,
        Bool.and_left_comm]
  · intro now now2 user t t' rest h
    have hc : t'.completed = true := by
      rw [save_preserves_completed h]
    simp [overdue_count, List.filter_cons, hc]

/-- Witness for C6: `sample_saved` (deadline 50, not completed) toggled to
`sample_completed` no longer counts at `now = 100`. -/
theorem overdue_count_correct_witness :
    overdue_count 100 [sample_completed] 1 = overdue_count 100 [] 1 :=
  overdue_count_correct.2 100 100 1 sample_saved sample_completed [] rfl

/-- C7: with the `assigned_to_me` filter off (the scope of the claim), the list
view result set consists exactly of the tasks created by or assigned to
the user, restricted by the exact-match status and priority filters, with
completed tasks dropped when `show_completed` is false; and it introduces
no duplicates. -/
theorem list_membership :
    (∀ (db : List Task) (user : Nat) (f : TaskFilterForm) (t : Task),
      f.assigned_to_me = false →
      (t ∈ task_list_filtered db user f ↔
        t ∈ db ∧ (t.created_by = user ∨ t.assigned_to = some user) ∧
        (∀ s, f.status = some s → t.status = s) ∧
        (∀ p, f.priority = some p → t.priority = p) ∧
        (f.show_completed = true ∨ t.completed = false))) ∧
    (∀ (db : List Task) (user : Nat) (f : TaskFilterForm),
      db.Nodup → (task_list_filtered db user f).Nodup) := by
  constructor
  · intro db user f t hme
    unfold task_list_filtered apply_filters base_tasks
    cases hs : f.status <;> cases hp : f.priority <;>
      cases hsc : f.show_completed <;>
      simp [List.mem_filter, hme, and_assoc] <;> tauto
  · intro db user f hnd
    unfold task_list_filtered apply_filters base_tasks
    cases f.status <;> cases f.priority <;>
      cases f.show_completed <;> cases f.assigned_to_me <;>
      simp <;>
      repeat (first
        | exact hnd
        | apply List.Nodup.filter)

/-- Witness for C7: `sample_assigned` (created by user 1) is in the unfiltered list of user 1 over a one-task database, and that list has no
duplicates. -/
theorem list_membership_witness :
    sample_assigned ∈ task_list_filtered [sample_assigned] 1 sample_filter ∧
    (task_list_filtered [sample_assigned] 1 sample_filter).Nodup :=
  ⟨(list_membership.1 [sample_assigned] 1 sample_filter sample_assigned rfl).mpr
      ⟨by simp, Or.inl rfl, fun s hs => Option.noConfusion hs,
       fun p hp => Option.noConfusion hp, Or.inl rfl⟩,
   list_membership.2 [sample_assigned] 1 sample_filter (by simp)⟩

/-- C8: the list view result is a permutation of the filtered set
sorted by `task_order_le` — ascending deadline with a deterministic
(nulls-first) placement of missing deadlines, ties broken by `created_at`
descending — and pagination at page size 10 partitions it: the pages
concatenate back to the list, no page exceeds 10 tasks, and every page
except possibly the last has exactly 10. -/
theorem list_ordering_pagination :
    ∀ (db : List Task) (user : Nat) (f : TaskFilterForm),
      (task_list_ordered db user f).Perm (task_list_filtered db user f) ∧
      List.Pairwise (fun a b => task_order_le a b = true)
        (task_list_ordered db user f) ∧
      (paginate (task_list_ordered db user f)).flatten
        = task_list_ordered db user f ∧
      ((paginate (task_list_ordered db user f)).all
        fun p => decide (p.length ≤ 10)) = true ∧
      ((paginate (task_list_ordered db user f)).dropLast.all
        fun p => decide (p.length = 10)) = true := by
  intro db user f
  refine ⟨List.mergeSort_perm _ _, ?_, ?_, ?_, ?_⟩
  · exact List.sorted_mergeSort task_order_le_trans
      (fun a b => task_order_le_total a b) _
  · exact paginate_aux_flatten _ _ le_rfl
  · rw [List.all_eq_true]
    intro p hp
    exact decide_eq_true (paginate_aux_length_le _ _ p hp)
  · rw [List.all_eq_true]
    intro p hp
    exact decide_eq_true (paginate_aux_dropLast _ _ p hp)

end TodoApp
